import Mathlib

/-!
Verification of the `enverus-developer-api` Python client
(`enverus_developer_api/__init__.py`), a client library for a paginated,
rate-limited HTTP data API.

The development shallowly embeds the core of the library:

* the `in_` filter helper (`BaseAPI.in_`),
* the oversized `in()` filter chunking (`_chunks` and the prelude of
  `BaseAPI.query`),
* the paging loop of `BaseAPI.query` (continuation links, the `paging`
  control option, and the session-resident `self.links` state),
* the response hook `BaseAPI._check_response` (status 400/401/403/404
  handling, token refresh, throttle retry and the retry counter),
* the `_headers` handling of `DeveloperAPIv3.is_omit_header_next_link`.

Network interaction is modelled by a server script: the paging loop reads
pages from a list indexed by continuation-link targets, and the response
hook consumes a list of scripted responses, one per (re)send of the same
request.  Machine-level aspects of Python (floats in
`floor(1950 / len(max(values)))`, bytes vs str) do not matter at the sizes
involved and are modelled with `Nat`/`Int` arithmetic.
-/

namespace Enverus

/-! ## Python values and the `in_` helper (`BaseAPI.in_`) -/

/-- Python scalar values that can appear in the argument of `BaseAPI.in_`:
strings and integers are the cases used by the library. -/
inductive PyVal
  | vstr (s : String)
  | vint (n : Int)
deriving DecidableEq

/-- Python `str()` applied to a scalar value. -/
def pyStr : PyVal → String
  | .vstr s => s
  | .vint n => toString n

/-- Python objects that can be passed to `BaseAPI.in_`: either a list of
values or a non-list object (a single string, a single int, ...). -/
inductive PyObj
  | plist (xs : List PyVal)
  | pscalar (v : PyVal)
deriving DecidableEq

/-- Python `type(...)` rendered as text, as interpolated into the
`TypeError` message of `BaseAPI.in_` (quotes of the Python rendering are
elided). -/
def pyTypeName : PyObj → String
  | .plist _ => "class list"
  | .pscalar (.vstr _) => "class str"
  | .pscalar (.vint _) => "class int"

/-- Python `str.lower()` restricted to ASCII (the only case the library
exercises): lower-case every character. -/
def pyLower (s : String) : String := ⟨s.data.map Char.toLower⟩

/-- Serialized `in(...)` filter expression over an already-stringified
value list: the string `in(v1,v2,...)`.  This is both what `BaseAPI.in_`
produces and what the chunking prelude of `BaseAPI.query` re-parses. -/
def serializeIn (values : List String) : String :=
  "in(" ++ String.intercalate "," values ++ ")"

/-- Model of the static method `BaseAPI.in_`: a non-list argument raises
`TypeError` (modelled as `Except.error` carrying the message); a list is
stringified element-wise and joined into the literal filter expression.
The method is a `@staticmethod` that touches neither `self` nor any
session, so it is a pure function of its argument: in particular it makes
no network call on any input. -/
def in_ : PyObj → Except String String
  | .plist xs => .ok ("in(" ++ String.intercalate "," (xs.map pyStr) ++ ")")
  | .pscalar v =>
      .error ("Argument provided was not a list. Type provided: "
        ++ pyTypeName (.pscalar v))

/-! ## Chunking of oversized `in()` filters (`_chunks` and `BaseAPI.query`) -/

/-- Fuel-driven helper realizing the slices produced by the generator
`_chunks(iterable, n)`: the slices `iterable[0:n], iterable[n:2n], ...`.
The fuel is the list length, which suffices whenever `0 < n`
(in Python, `n = 0` makes `range(0, l, 0)` raise `ValueError`). -/
def chunksAux (n : Nat) : Nat → List α → List (List α)
  | 0, _ => []
  | _, [] => []
  | fuel+1, l => l.take n :: chunksAux n fuel (l.drop n)

/-- Model of `_chunks(iterable, n)` with the fuel instantiated. -/
def chunksF (l : List α) (n : Nat) : List (List α) :=
  chunksAux n l.length l

/-- Python `<` on characters: comparison of code points. -/
def pyCharLt (a b : Char) : Bool := a.toNat < b.toNat

/-- Python `<` on strings: lexicographic comparison of the code-point
sequences. -/
def pyStrLtList : List Char → List Char → Bool
  | [], [] => false
  | [], _ :: _ => true
  | _ :: _, [] => false
  | a :: as, b :: bs =>
      if pyCharLt a b then true
      else if pyCharLt b a then false
      else pyStrLtList as bs

/-- Python `a < b` on strings. -/
def pyStrLt (a b : String) : Bool := pyStrLtList a.data b.data

/-- Model of Python `max(values)` on a list of strings: the maximum under
lexicographic code-point comparison, keeping the current element on ties,
exactly as Python's `max` scans with `>`.  Python raises on an empty list;
the fold's base `""` is only reached there. -/
def pyMax (l : List String) : String :=
  l.foldl (fun a b => if pyStrLt a b then b else a) ""

/-- Chunk size computed by `BaseAPI.query`:
`int(floor(1950 / len(max(values))))`.  Note that `max(values)` is the
lexicographically greatest value, not the longest one. -/
def chunkSizeOf (values : List String) : Nat :=
  1950 / (pyMax values).length

/-- Filter chunk plan computed by `BaseAPI.query` for an oversized `in()`
value list: `[x for x in _chunks(values, chunksize)]`. -/
def chunkPlanOf (values : List String) : List (List String) :=
  chunksF values (chunkSizeOf values)

/-- Chunk size prescribed by the specification text: `floor(1950 / length
of the longest single value)`.  Modelled from the spec for comparison with
`chunkSizeOf`; the code's `len(max(values))` measures the lexicographic
maximum instead. -/
def specChunkSize (values : List String) : Nat :=
  1950 / (values.map String.length).foldl max 0

/-- Joining the chunks produced by `chunksAux` recovers the input list,
provided the fuel covers the list and the chunk size is positive. -/
theorem chunksAux_flatten (n : Nat) (hn : 0 < n) :
    ∀ (fuel : Nat) (l : List α), l.length ≤ fuel →
      (chunksAux n fuel l).flatten = l := by
  intro fuel
  induction fuel with
  | zero =>
      intro l hl
      have : l = [] := List.length_eq_zero.mp (Nat.le_zero.mp hl)
      subst this
      rfl
  | succ f ih =>
      intro l hl
      cases l with
      | nil => rfl
      | cons x xs =>
          have hdrop : ((x :: xs).drop n).length ≤ f := by
            rw [List.length_drop]
            have hlen : (x :: xs).length ≤ f + 1 := hl
            omega
          calc (chunksAux n (f + 1) (x :: xs)).flatten
              = (x :: xs).take n ++ (chunksAux n f ((x :: xs).drop n)).flatten := by
                rfl
            _ = (x :: xs).take n ++ (x :: xs).drop n := by rw [ih _ hdrop]
            _ = x :: xs := List.take_append_drop n (x :: xs)

/-- Every chunk produced by `chunksAux` has at most `n` elements. -/
theorem chunksAux_length_le (n : Nat) :
    ∀ (fuel : Nat) (l : List α), ∀ c ∈ chunksAux n fuel l, c.length ≤ n := by
  intro fuel
  induction fuel with
  | zero => intro l c hc; simp [chunksAux] at hc
  | succ f ih =>
      intro l c hc
      cases l with
      | nil => simp [chunksAux] at hc
      | cons x xs =>
          simp only [chunksAux, List.mem_cons] at hc
          rcases hc with rfl | hc
          · rw [List.length_take]
            exact Nat.min_le_left ..
          · exact ih _ c hc

/-- Joining the chunks of `chunksF` recovers the input list when the chunk
size is positive. -/
theorem chunksF_flatten (l : List α) (n : Nat) (hn : 0 < n) :
    (chunksF l n).flatten = l :=
  chunksAux_flatten n hn l.length l (Nat.le_refl _)

/-! ## The paging loop of `BaseAPI.query`

The loop body of `BaseAPI.query` (for a query without an oversized `in()`
filter, so `query_chunks is None`) is:

* if `self.links` is set, GET the stored next-link URL, else GET the
  dataset URL;
* a non-empty error response raises; the happy path parses `records`;
* empty `records` sets `self.links = None` and breaks;
* if the response carries a `next` link, store it in `self.links`
  (otherwise `self.links` keeps its previous value);
* yield the records, then break when `self.links is None` or the `paging`
  option lower-cases to `"false"`.

The server is modelled as a list of `Page`s: index `0` answers the fresh
dataset request, and a stored next-link `some j` answers with page `j`.
Each page carries its records (record ids, the payload being opaque) and
the target of its `next` response link, if any. -/

/-- Server page: response records plus the target of the `next` link in
the response's `Link` header, if present. -/
structure Page where
  records : List Nat
  next : Option Nat
deriving DecidableEq

/-- Page answering requests outside the scripted server. -/
def emptyPage : Page := ⟨[], none⟩

/-- Response fetched by one iteration of the paging loop: the fresh
dataset request (no stored links) reads page `0`; a stored next-link
`some j` reads page `j`. -/
def getPage (server : List Page) : Option Nat → Page
  | none => server.getD 0 emptyPage
  | some j => server.getD j emptyPage

/-- Fuel-indexed run of the paging loop of `BaseAPI.query`, starting from
the Session's current `self.links` value.  Returns the records yielded by
the generator (in yield order), the final value of the session field
`self.links`, and whether the loop terminated of its own accord within
the given fuel (`false` means the fuel ran out with the loop still
going, i.e. the generator would keep yielding). -/
def queryLoop (server : List Page) (paging : String) :
    Option Nat → Nat → List Nat × Option Nat × Bool
  | links, 0 => ([], links, false)
  | links, fuel+1 =>
    let page := getPage server links
    if page.records.isEmpty then
      ([], none, true)
    else
      let links' := match page.next with
        | some j => some j
        | none => links
      if links'.isNone || (pyLower paging == "false") then
        (page.records, links', true)
      else
        let r := queryLoop server paging links' fuel
        (page.records ++ r.1, r.2.1, r.2.2)

/-- Well-behaved paginated dataset with the given per-page record lists:
page `i` carries `pages[i]` and a `next` link to page `i + 1`; the final
page (index `pages.length`) is empty with no `next` link, signalling
exhaustion.  This is the shape for which the paging loop terminates. -/
def chainServer (pages : List (List Nat)) : List Page :=
  (List.range pages.length).map (fun i => ⟨pages.getD i [], some (i + 1)⟩)
    ++ [emptyPage]

/-! ## The response hook `BaseAPI._check_response`

`_check_response` is installed as a `requests` response hook, so it runs
on every response, including the responses of the resends it performs
itself (a resent request keeps its hooks).  It is modelled as a recursive
processor of a script of responses: the head of the script is the
response under inspection, and each resend consumes the next script
entry.  The Session state threaded through is the access token held in
the `Authorization` header (a counter: `get_access_token()` replaces the
token, modelled as `tok + 1`) and the `self.retries` counter (an `Int`:
the code decrements it without ever checking it, so it can go negative).
-/

/-- Scripted HTTP response: its status code and its final URL
(`response.url`), which `_check_response` inspects for the substring
`"tokens"`. -/
structure Resp where
  status : Nat
  url : String
deriving DecidableEq

/-- Python `needle in haystack` on strings: substring test. -/
def pyInStr (needle haystack : String) : Bool :=
  decide (needle.data <:+: haystack.data)

/-- Outcome of `_check_response` (together with the `query`-side
`response.ok` check that follows it): either the response is handed back
to the caller unchanged (`passThrough`, covering both success and the
statuses the hook leaves for `query` to raise on), or one of the typed
exceptions is raised. -/
inductive CheckOutcome
  | passThrough (r : Resp)
  | authError
  | queryError
  | datasetError
deriving DecidableEq

/-- Model of `BaseAPI._check_response` run to completion on a script of
responses.  Mirrors the hook's dispatch: `response.ok` (status < 400)
passes through; 400 raises `DAAuthException` when `"tokens" in
response.url` and `DAQueryException` otherwise; 401 refreshes the access
token (`tok + 1`, also updating the `Authorization` header) and resends
the original request, whose response is the next script entry; 403 with
`"tokens"` in the URL decrements `self.retries`, sleeps 60 seconds and
resends; 404 raises `DADatasetException`; anything else passes through
(5xx having been handled inside the transport adapter).  Returns the
final outcome with the resulting token and retry counters, or `none`
when the fuel (or the script) is exhausted while the hook is still
resending. -/
def processResponse : List Resp → Nat → Int → Nat → Option (CheckOutcome × Nat × Int)
  | _, _, _, 0 => none
  | [], _, _, _+1 => none
  | r :: rest, tok, ret, fuel+1 =>
    if r.status < 400 then some (.passThrough r, tok, ret)
    else if r.status = 400 then
      if pyInStr "tokens" r.url then some (.authError, tok, ret)
      else some (.queryError, tok, ret)
    else if r.status = 401 then
      processResponse rest (tok + 1) ret fuel
    else if r.status = 403 && pyInStr "tokens" r.url then
      processResponse rest tok (ret - 1) fuel
    else if r.status = 404 then some (.datasetError, tok, ret)
    else some (.passThrough r, tok, ret)

/-- Base URL of the v3 client (`DeveloperAPIv3.url`). -/
def v3BaseUrl : String := "https://api.enverus.com/v3/direct-access/"

/-- Token endpoint URL: `os.path.join(self.url, "tokens")`. -/
def tokenEndpointUrl : String := v3BaseUrl ++ "tokens"

/-- Data endpoint URL for a dataset:
`os.path.join(self.url, dataset)`. -/
def dataEndpointUrl (dataset : String) : String := v3BaseUrl ++ dataset

/-! ## `_headers` handling in `DeveloperAPIv3`

`DeveloperAPIv3.query` pops the `_headers` option and first passes it to
`is_omit_header_next_link`, which iterates over the supplied pairs,
writes each one into `self.session.headers` (the Session's default
headers, sent with every later request of the client instance), and
returns `True` as soon as it meets a pair enabling
`x-omit-header-next-links` — skipping the remaining pairs.  The
Session's header store is a case-insensitive mapping
(`requests.structures.CaseInsensitiveDict`), modelled as a function from
lower-cased keys. -/

/-- Session default headers, as the case-insensitive lookup they
implement: a header value per lower-cased key. -/
def Headers : Type := String → Option String

/-- Header store with no entries. -/
def noHeaders : Headers := fun _ => none

/-- Model of `self.session.headers[k] = v` on a case-insensitive header
store. -/
def headersSet (h : Headers) (k v : String) : Headers :=
  fun q => if pyLower q = pyLower k then some v else h q

/-- Case-insensitive header lookup. -/
def headersGet (h : Headers) (k : String) : Option String := h k

/-- Check of one `_headers` pair against the reserved flag:
`k.lower() == "x-omit-header-next-links" and v.lower() == "true"`. -/
def isOmitFlagPair (k v : String) : Bool :=
  pyLower k == "x-omit-header-next-links" && pyLower v == "true"

/-- Model of `DeveloperAPIv3.is_omit_header_next_link` applied to the
`_headers` option (given as its key/value pairs in dict insertion order)
and the Session's current default headers: each visited pair is written
into the session headers; on the first pair enabling the omit flag the
method returns `True` immediately, leaving the remaining pairs
unwritten. -/
def is_omit_header_next_link :
    List (String × String) → Headers → Bool × Headers
  | [], sess => (false, sess)
  | (k, v) :: rest, sess =>
    let sess' := headersSet sess k v
    if isOmitFlagPair k v then (true, sess')
    else is_omit_header_next_link rest sess'

/-! ## Concrete fixtures

`aThousand`/`bThousand` are thousand-character filter values used to build
a concrete oversized `in()` value list whose serialized form exceeds the
1950-character threshold. -/

/-- Thousand-character value consisting of the letter `a`. -/
def aThousand : String := ⟨List.replicate 1000 'a'⟩

/-- Thousand-character value consisting of the letter `b`. -/
def bThousand : String := ⟨List.replicate 1000 'b'⟩

/-- Oversized `in()` value list: two thousand-character values and the
short value `z`, which is the lexicographic maximum. -/
def c5Vals : List String := [aThousand, bThousand, "z"]

/-- Length of the fixture value `aThousand`. -/
theorem aThousand_length : aThousand.length = 1000 := by
  have h : aThousand.length = (List.replicate 1000 'a').length := rfl
  rw [h, List.length_replicate]

/-- Length of the fixture value `bThousand`. -/
theorem bThousand_length : bThousand.length = 1000 := by
  have h : bThousand.length = (List.replicate 1000 'b').length := rfl
  rw [h, List.length_replicate]

/-- Serialized length of the oversized fixture list: 2007 characters,
above the 1950-character threshold. -/
theorem c5Vals_serialized_length : (serializeIn c5Vals).length = 2007 := by
  simp only [serializeIn, c5Vals, String.intercalate, String.intercalate.go,
    String.length_append, aThousand_length, bThousand_length]
  decide

/-- Python `max` of the fixture list is the lexicographic maximum `z`,
not one of the thousand-character values. -/
theorem c5Vals_pyMax : pyMax c5Vals = "z" := by decide

/-- Chunk size the code computes for the fixture list:
`floor(1950 / len("z")) = 1950`. -/
theorem c5Vals_chunkSize : chunkSizeOf c5Vals = 1950 := by
  rw [chunkSizeOf, c5Vals_pyMax]
  decide

/-- Chunk size the specification prescribes for the fixture list:
`floor(1950 / 1000) = 1`, computed from the longest value. -/
theorem c5Vals_specChunkSize : specChunkSize c5Vals = 1 := by
  simp only [specChunkSize, c5Vals, List.map, aThousand_length, bThousand_length,
    List.foldl]
  decide

/-- The chunk plan for the fixture list is a single chunk holding the
whole value list. -/
theorem c5Vals_plan : chunkPlanOf c5Vals = [c5Vals] := by
  rw [chunkPlanOf, c5Vals_chunkSize]
  rfl

/-! ## Paging-loop lemmas -/

/-- One iteration of the paging loop on a response whose record batch is
empty: the loop clears `self.links` and terminates at once. -/
theorem queryLoop_step_empty (server : List Page) (paging : String)
    (links : Option Nat) (fuel : Nat)
    (h : (getPage server links).records = []) :
    queryLoop server paging links (fuel + 1) = ([], none, true) := by
  simp [queryLoop, h]

/-- One iteration of the paging loop with `paging="true"` on a non-empty
page carrying a next link: the records are yielded, the link is stored,
and the loop continues from the link. -/
theorem queryLoop_step_next (server : List Page) (links : Option Nat)
    (fuel : Nat) (rs : List Nat) (j : Nat)
    (hpage : getPage server links = ⟨rs, some j⟩) (hrs : rs ≠ []) :
    queryLoop server "true" links (fuel + 1)
      = (rs ++ (queryLoop server "true" (some j) fuel).1,
         (queryLoop server "true" (some j) fuel).2.1,
         (queryLoop server "true" (some j) fuel).2.2) := by
  have hp : (pyLower "true" == "false") = false := by decide
  simp [queryLoop, hpage, hrs, hp]

/-- Page read by a stored link `some i` on a `chainServer`, for an index
inside the chain: the scripted records plus a link to page `i + 1`. -/
theorem chainServer_getPage_lt (pages : List (List Nat)) (i : Nat)
    (hi : i < pages.length) :
    getPage (chainServer pages) (some i) = ⟨pages.getD i [], some (i + 1)⟩ := by
  have h1 : (chainServer pages)[i]? = some ⟨pages.getD i [], some (i + 1)⟩ := by
    rw [chainServer, List.getElem?_append, if_pos (by simpa using hi),
      List.getElem?_map, List.getElem?_range hi]
    rfl
  show (chainServer pages).getD i emptyPage = _
  rw [List.getD_eq_getElem?_getD, h1]
  rfl

/-- Page read by a stored link to the index one past the chain: the empty
terminal page. -/
theorem chainServer_getPage_last (pages : List (List Nat)) :
    getPage (chainServer pages) (some pages.length) = emptyPage := by
  have h1 : (chainServer pages)[pages.length]? = some emptyPage := by
    rw [chainServer, List.getElem?_append_right (by simp)]
    simp
  show (chainServer pages).getD pages.length emptyPage = _
  rw [List.getD_eq_getElem?_getD, h1]
  rfl

/-- Running the paging loop on a `chainServer` from a stored link
`some i` yields the concatenation of the remaining pages and terminates
with `self.links` cleared, provided every page is non-empty and the fuel
covers the remaining pages. -/
theorem queryLoop_chainServer (pages : List (List Nat))
    (hne : ∀ p ∈ pages, p ≠ []) :
    ∀ (fuel i : Nat), i ≤ pages.length → pages.length - i < fuel →
      queryLoop (chainServer pages) "true" (some i) fuel
        = ((pages.drop i).flatten, none, true) := by
  intro fuel
  induction fuel with
  | zero => intro i hi hf; exact absurd hf (Nat.not_lt_zero _)
  | succ f ih =>
      intro i hi hf
      rcases Nat.lt_or_ge i pages.length with hlt | hge
      · have hget : pages.getD i [] = pages[i] := List.getD_eq_getElem pages [] hlt
        have hne' : pages[i] ≠ [] := hne _ (pages.getElem_mem hlt)
        rw [queryLoop_step_next (chainServer pages) (some i) f pages[i] (i + 1)
            (by rw [chainServer_getPage_lt pages i hlt, hget]) hne',
          ih (i + 1) hlt (by omega)]
        rw [List.drop_eq_getElem_cons hlt, List.flatten_cons]
      · have hi' : i = pages.length := Nat.le_antisymm hi hge
        subst hi'
        rw [queryLoop_step_empty (chainServer pages) "true" (some pages.length) f
            (by rw [chainServer_getPage_last]; rfl)]
        simp [List.drop_length]

/-! ## Response-hook lemmas -/

/-- A run of `k` consecutive 401 responses: each one triggers a token
refresh and a resend, so the hook moves past them with the token counter
advanced by `k`, having consumed `k` units of fuel and an unchanged retry
counter. -/
theorem processResponse_replicate_401 (k : Nat) (u : String) :
    ∀ (rest : List Resp) (tok : Nat) (ret : Int) (fuel : Nat),
      processResponse (List.replicate k ⟨401, u⟩ ++ rest) tok ret (fuel + 1 + k)
        = processResponse rest (tok + k) ret (fuel + 1) := by
  induction k with
  | zero => intro rest tok ret fuel; rfl
  | succ k ih =>
      intro rest tok ret fuel
      have hstep :
          processResponse (List.replicate (k + 1) ⟨401, u⟩ ++ rest) tok ret (fuel + 1 + (k + 1))
            = processResponse (List.replicate k ⟨401, u⟩ ++ rest) (tok + 1) ret (fuel + 1 + k) := by
        simp [List.replicate_succ, processResponse]
      rw [hstep, ih rest (tok + 1) ret fuel, Nat.add_right_comm tok 1 k,
        Nat.add_assoc]

/-! ## Header-writing lemmas -/

/-- Processing a list of `_headers` pairs leaves every session header
whose (lower-cased) key occurs in none of the pairs untouched, whether or
not the omit flag is hit along the way. -/
theorem is_omit_header_preserved (hdrs : List (String × String)) :
    ∀ (sess : Headers) (q : String),
      (∀ p ∈ hdrs, pyLower p.1 ≠ pyLower q) →
      (is_omit_header_next_link hdrs sess).2 q = sess q := by
  induction hdrs with
  | nil => intro sess q _; rfl
  | cons p rest ih =>
      intro sess q h
      obtain ⟨k, v⟩ := p
      have hk : pyLower q ≠ pyLower k :=
        fun e => h (k, v) (List.mem_cons_self _ _) e.symm
      have hset : headersSet sess k v q = sess q := by
        simp [headersSet, hk]
      by_cases hf : isOmitFlagPair k v
      · simp [is_omit_header_next_link, hf, hset]
      · simp only [is_omit_header_next_link, hf, if_false, Bool.false_eq_true]
        rw [ih _ q (fun p hp => h p (List.mem_cons_of_mem _ hp)), hset]

/-- Writing a header then reading it back through the case-insensitive
store returns the written value. -/
theorem headersSet_get_self (sess : Headers) (k v : String) :
    headersSet sess k v k = some v := by
  simp [headersSet]

/-! ## Claims

One theorem per claim of the specification, with counterexamples where
the code diverges from the claimed behaviour. -/

/-- Server of the C1 example scenario exactly as claimed: page 0 holds
records 1 and 2 with a next link to page 1; page 1 holds record 3 and
carries no next link. -/
def c1Server : List Page := [⟨[1, 2], some 1⟩, ⟨[3], none⟩]

/-- C1 (counterexample): on the claim's own example — page 1 = records
1,2 with a next link, page 2 = record 3 with no next link — the generator
does not yield exactly 1,2,3 and terminate.  Because a response without a
`next` link leaves `self.links` pointing at the previous link, the loop
re-requests the final page: within 3 iterations it has already yielded a
fourth record (3 again), the stored link is still set, and the loop has
not terminated. -/
theorem query_final_page_without_next_keeps_yielding :
    queryLoop c1Server "true" none 3 = ([1, 2, 3, 3], some 1, false) := by
  decide

/-- C1 (amended): on a fresh Session (no stored continuation link), for a
server returning N non-empty pages, each carrying a next link and the
last link answered by an empty page (the way the API signals
exhaustion), consuming the generator yields exactly the concatenation of
the page record lists, in server order across page boundaries, and then
terminates with the stored link cleared. -/
theorem query_yields_all_pages_until_empty (pages : List (List Nat))
    (hne : ∀ p ∈ pages, p ≠ []) (fuel : Nat) (hfuel : pages.length < fuel) :
    queryLoop (chainServer pages) "true" none fuel
      = (pages.flatten, none, true) := by
  cases fuel with
  | zero => exact absurd hfuel (Nat.not_lt_zero _)
  | succ f =>
      cases pages with
      | nil =>
          rw [queryLoop_step_empty (chainServer []) "true" none f
            (by rw [show getPage (chainServer []) none
                      = getPage (chainServer []) (some 0) from rfl,
                    show (0 : Nat) = ([] : List (List Nat)).length from rfl,
                    chainServer_getPage_last]; rfl)]
          rfl
      | cons p ps =>
          have h0 : getPage (chainServer (p :: ps)) none
              = ⟨(p :: ps).getD 0 [], some 1⟩ :=
            chainServer_getPage_lt (p :: ps) 0 (by simp)
          have hfl : (p :: ps).length - 1 < f := by
            simp only [List.length_cons] at hfuel ⊢
            omega
          rw [queryLoop_step_next (chainServer (p :: ps)) none f p 1
              (by rw [h0]; rfl) (hne p (List.mem_cons_self _ _)),
            queryLoop_chainServer (p :: ps) hne f 1 (by simp) hfl]
          rfl

/-- C1 (witness): the amended behaviour at the example sizes — pages
[1,2] and [3], each with a next link, followed by the empty terminal
page — yields exactly 1,2,3 and terminates. -/
theorem query_yields_all_pages_until_empty_witness :
    queryLoop (chainServer [[1, 2], [3]]) "true" none 3
      = ([1, 2, 3], none, true) :=
  query_yields_all_pages_until_empty [[1, 2], [3]] (by decide) 3 (by decide)

/-- Server exhibiting the continuation-state leak: page 0 holds record 10
with a next link to page 1, page 1 holds record 99 with a next link to
the empty page 2. -/
def leakServer : List Page := [⟨[10], some 1⟩, ⟨[99], some 2⟩, ⟨[], none⟩]

/-- C2 (code bug, evaluation at the failing input): `BaseAPI.query` never
resets `self.links` on entry, so continuation state leaks between calls
on the same Session.  First conjunct: a `paging="false"` call yields page
0 and returns with `self.links` still holding the next link (`some 1`).
Second conjunct: a later call on the same Session therefore starts from
the stale link and yields only record 99.  Third conjunct: the same call
on a fresh Session yields records 10 and 99 — the stale state changed
which requests the new call issues, with no explicit continuation state
supplied by the caller. -/
theorem query_stale_links_leak_eval :
    queryLoop leakServer "false" none 1 = ([10], some 1, true)
    ∧ queryLoop leakServer "true" (some 1) 2 = ([99], none, true)
    ∧ queryLoop leakServer "true" none 3 = ([10, 99], none, true) :=
  ⟨by decide, by decide, by decide⟩

/-- C3 (counterexample): a request answered 401 twice in a row and then
200.  The claim says the second consecutive 401 must surface as an
AuthError with no further refresh; instead `_check_response` refreshes
and resends again — the final outcome is the 200 response passed through
with the token refreshed twice (token counter 2), and no exception. -/
theorem second_401_refreshes_again :
    processResponse [⟨401, dataEndpointUrl "wells"⟩,
        ⟨401, dataEndpointUrl "wells"⟩, ⟨200, dataEndpointUrl "wells"⟩] 0 5 3
      = some (.passThrough ⟨200, dataEndpointUrl "wells"⟩, 2, 5) := by
  decide

/-- C3 (amended): every 401 response triggers a token refresh and a
resend of the original request with the refreshed Authorization header,
invisibly to the caller: after any run of `k` consecutive 401s followed
by a success status, the success response is handed back unchanged, no
error is raised, and the Session's Authorization token is the one from
the last refresh (`tok + k`).  There is no guard after the first
refresh: consecutive 401s keep triggering refreshes instead of raising
an AuthError. -/
theorem refresh401_transparent (k : Nat) (u u2 : String) (s : Nat)
    (rest : List Resp) (tok : Nat) (ret : Int) (fuel : Nat) (hs : s < 400) :
    processResponse (List.replicate k ⟨401, u⟩ ++ ⟨s, u2⟩ :: rest) tok ret
        (fuel + 1 + k)
      = some (.passThrough ⟨s, u2⟩, tok + k, ret) := by
  rw [processResponse_replicate_401]
  simp [processResponse, hs]

/-- C3 (witness): two consecutive 401s followed by a 200 pass the 200
through with the token counter at 2. -/
theorem refresh401_transparent_witness :
    (200 : Nat) < 400
    ∧ processResponse
        (List.replicate 2 ⟨401, dataEndpointUrl "rigs"⟩
          ++ ⟨200, dataEndpointUrl "rigs"⟩ :: []) 7 5 3
        = some (.passThrough ⟨200, dataEndpointUrl "rigs"⟩, 9, 5) :=
  ⟨by decide, refresh401_transparent 2 (dataEndpointUrl "rigs")
    (dataEndpointUrl "rigs") 200 [] 7 5 0 (by decide)⟩

/-- C4 (counterexample): token endpoint answering 403, 403, 200 with a
retry budget of 1.  The claim says that once the budget is exhausted the
failure must propagate as an AuthError instead of being retried; instead
the code retries again (the counter ends at -1) and passes the final 200
through — no AuthError is ever raised on this path. -/
theorem token403_budget_exhausted_still_retries :
    processResponse [⟨403, tokenEndpointUrl⟩, ⟨403, tokenEndpointUrl⟩,
        ⟨200, tokenEndpointUrl⟩] 0 1 3
      = some (.passThrough ⟨200, tokenEndpointUrl⟩, 0, -1) := by
  decide

/-- C4 (amended): whenever the token endpoint responds 403, the client
waits 60 seconds, decrements `self.retries`, and resends the same token
request — unconditionally: the budget is never consulted on this path,
so after any run of `k` consecutive 403s the hook is still processing
(with the counter at `ret - k`, possibly negative) rather than raising
an AuthError. -/
theorem token403_sleep_retry_decrement (k : Nat) :
    ∀ (rest : List Resp) (tok : Nat) (ret : Int) (fuel : Nat),
      processResponse (List.replicate k ⟨403, tokenEndpointUrl⟩ ++ rest) tok ret
          (fuel + k)
        = processResponse rest tok (ret - k) fuel := by
  induction k with
  | zero => intro rest tok ret fuel; simp
  | succ k ih =>
      intro rest tok ret fuel
      have htok : pyInStr "tokens" tokenEndpointUrl = true := by decide
      have hstep :
          processResponse (List.replicate (k + 1) ⟨403, tokenEndpointUrl⟩ ++ rest)
              tok ret (fuel + (k + 1))
            = processResponse (List.replicate k ⟨403, tokenEndpointUrl⟩ ++ rest)
                tok (ret - 1) (fuel + k) := by
        simp [List.replicate_succ, processResponse, htok]
      rw [hstep, ih rest tok (ret - 1) fuel]
      congr 1
      push_cast
      ring

/-- C5 (counterexample): the oversized value list `c5Vals` (two
1000-character values and the value `z`; serialized length 2007 > 1950).
The claim prescribes subsets of size `floor(1950 / longest) = 1`; the
code divides by the length of the *lexicographically greatest* value
(`z`, length 1) and produces a single subset of all 3 values, whose
serialized `in(...)` form is 2007 characters — not under the
1950-character threshold. -/
theorem chunk_size_and_threshold_counterexample :
    (serializeIn c5Vals).length > 1950
    ∧ specChunkSize c5Vals = 1
    ∧ (chunkPlanOf c5Vals).map List.length = [3]
    ∧ ¬ (serializeIn ((chunkPlanOf c5Vals).getD 0 [])).length < 1950 := by
  refine ⟨?_, c5Vals_specChunkSize, ?_, ?_⟩
  · rw [c5Vals_serialized_length]; decide
  · rw [c5Vals_plan]; rfl
  · rw [c5Vals_plan]
    show ¬ (serializeIn c5Vals).length < 1950
    rw [c5Vals_serialized_length]; decide

/-- C5 (amended): `query` splits the comma-separated value list into the
subsets `_chunks(values, n)` with `n = floor(1950 / len(max(values)))`,
where `max(values)` is the lexicographically greatest value (not the
longest one); each resulting subset holds at most `n` values, but its
serialized `in(...)` form can exceed the 1950-character threshold. -/
theorem chunkPlan_size_bound (vals : List String)
    (h : 0 < chunkSizeOf vals) :
    ∀ c ∈ chunkPlanOf vals, c.length ≤ chunkSizeOf vals := by
  intro c hc
  exact chunksAux_length_le (chunkSizeOf vals) vals.length vals c hc

/-- C5 (witness): for the two-value list `a, b` the chunk size is 1950
and the single produced subset holds 2 ≤ 1950 values. -/
theorem chunkPlan_size_bound_witness :
    0 < chunkSizeOf ["a", "b"]
    ∧ (["a", "b"] : List String).length ≤ chunkSizeOf ["a", "b"] :=
  ⟨by decide, chunkPlan_size_bound ["a", "b"] (by decide) ["a", "b"] (by decide)⟩

/-- C6: for every value list the chunking step splits (its serialized
form exceeds the 1950-character threshold and the computed chunk size is
positive, i.e. the code does not crash dividing or slicing), the
concatenation of the produced subsets, in order, is exactly the original
value list — no value dropped, none duplicated.  Oversizedness is
irrelevant to the property, which holds for every positive chunk size. -/
theorem chunkPlan_flatten_eq (vals : List String)
    (hover : (serializeIn vals).length > 1950) (h : 0 < chunkSizeOf vals) :
    (chunkPlanOf vals).flatten = vals :=
  chunksF_flatten vals (chunkSizeOf vals) h

/-- C6 (witness): the oversized fixture list is split and reassembles to
itself. -/
theorem chunkPlan_flatten_eq_witness :
    (serializeIn c5Vals).length > 1950
    ∧ 0 < chunkSizeOf c5Vals
    ∧ (chunkPlanOf c5Vals).flatten = c5Vals :=
  ⟨by rw [c5Vals_serialized_length]; decide,
   by rw [c5Vals_chunkSize]; decide,
   chunkPlan_flatten_eq c5Vals (by rw [c5Vals_serialized_length]; decide)
     (by rw [c5Vals_chunkSize]; decide)⟩

/-- C7: with the control option `paging="false"`, the generator yields
exactly the records of the first response batch and then terminates —
whatever continuation link that response may carry and whatever further
pages the server would serve (the server and the Session's initial link
state are arbitrary). -/
theorem query_paging_false_first_batch (server : List Page)
    (links0 : Option Nat) (fuel : Nat) :
    (queryLoop server "false" links0 (fuel + 1)).1
        = (getPage server links0).records
    ∧ (queryLoop server "false" links0 (fuel + 1)).2.2 = true := by
  by_cases h : (getPage server links0).records.isEmpty
  · have he : (getPage server links0).records = [] := by
      simpa [List.isEmpty_iff] using h
    rw [queryLoop_step_empty server "false" links0 fuel he]
    simp [he]
  · have hp : (pyLower "false" == "false") = true := by decide
    simp [queryLoop, h, hp]

/-- C8 (counterexample): a 400 on the data endpoint of a dataset whose
name contains the substring `tokens` (here `tokensdata`, a data endpoint
distinct from the token endpoint) is classified by the `"tokens" in
response.url` test as a token-endpoint failure and raises
`DAAuthException` — an AuthError on a data endpoint URL. -/
theorem data_endpoint_with_tokens_in_name_misclassified :
    processResponse [⟨400, dataEndpointUrl "tokensdata"⟩] 0 0 1
        = some (.authError, 0, 0)
    ∧ "tokensdata" ≠ "tokens" :=
  ⟨by decide, by decide⟩

/-- C8 (amended): a 400 response from the token endpoint raises
`DAAuthException`; a 400 response from a data endpoint raises
`DAQueryException` provided the data endpoint URL does not contain the
substring `tokens` (the code classifies by that substring, so a dataset
name containing `tokens` is misclassified as a token-endpoint
failure). -/
theorem status400_classification (rest : List Resp) (tok : Nat) (ret : Int)
    (fuel : Nat) :
    processResponse (⟨400, tokenEndpointUrl⟩ :: rest) tok ret (fuel + 1)
        = some (.authError, tok, ret)
    ∧ ∀ d : String, pyInStr "tokens" (dataEndpointUrl d) = false →
        processResponse (⟨400, dataEndpointUrl d⟩ :: rest) tok ret (fuel + 1)
          = some (.queryError, tok, ret) := by
  constructor
  · have h : pyInStr "tokens" tokenEndpointUrl = true := by decide
    simp [processResponse, h]
  · intro d hd
    simp [processResponse, hd]

/-- C8 (witness): the classification at the token endpoint and at the
`wells` data endpoint. -/
theorem status400_classification_witness :
    processResponse [⟨400, tokenEndpointUrl⟩] 0 0 1 = some (.authError, 0, 0)
    ∧ processResponse [⟨400, dataEndpointUrl "wells"⟩] 0 0 1
        = some (.queryError, 0, 0) :=
  ⟨(status400_classification [] 0 0 0).1,
   (status400_classification [] 0 0 0).2 "wells" (by decide)⟩

/-- C9: `in_` on a Python list returns (with no network interaction — it
is a pure static method) the literal filter expression joining the
stringified values in order, i.e. exactly the serialized `in(v1,v2,...)`
form; on any non-list argument — for example a single string — it raises
`TypeError` without any network interaction. -/
theorem in_serialization_and_type_error :
    (∀ xs : List PyVal, in_ (.plist xs) = .ok (serializeIn (xs.map pyStr)))
    ∧ ∀ v : PyVal, in_ (.pscalar v)
        = .error ("Argument provided was not a list. Type provided: "
            ++ pyTypeName (.pscalar v)) :=
  ⟨fun _ => rfl, fun _ => rfl⟩

/-- C10 (counterexample): `_headers` supplying the omit flag first and a
further header after it.  `is_omit_header_next_link` returns as soon as
it writes the flag pair, so the later pair (`Accept`) is never written
into the Session's default headers — not every supplied pair persists on
the Session. -/
theorem header_after_omit_flag_not_written :
    (is_omit_header_next_link
        [("X-Omit-Header-Next-Links", "true"), ("Accept", "text/csv")]
        noHeaders).2 "Accept"
      ≠ some "text/csv" := by
  decide

/-- C10 (amended): `is_omit_header_next_link` writes the supplied
`_headers` pairs into the Session's default headers only up to and
including the first pair enabling `x-omit-header-next-links`; when no
pair enables the flag (and the keys are distinct case-insensitively),
every supplied pair is written into the Session's default headers, where
it persists for all subsequent requests of the client instance. -/
theorem headers_written_when_no_omit_flag (hdrs : List (String × String)) :
    ∀ (sess : Headers),
      (∀ p ∈ hdrs, isOmitFlagPair p.1 p.2 = false) →
      hdrs.Pairwise (fun p q => pyLower p.1 ≠ pyLower q.1) →
      ∀ p ∈ hdrs, (is_omit_header_next_link hdrs sess).2 p.1 = some p.2 := by
  induction hdrs with
  | nil => intro sess _ _ p hp; exact absurd hp (List.not_mem_nil p)
  | cons q rest ih =>
      intro sess hflag hdist p hp
      obtain ⟨k, v⟩ := q
      have hfq : isOmitFlagPair k v = false := hflag (k, v) (List.mem_cons_self _ _)
      have hstep : (is_omit_header_next_link ((k, v) :: rest) sess).2
          = (is_omit_header_next_link rest (headersSet sess k v)).2 := by
        simp [is_omit_header_next_link, hfq]
      rw [hstep]
      rcases List.mem_cons.mp hp with rfl | hp'
      · rw [is_omit_header_preserved rest (headersSet sess k v) (k, v).1
            (fun r hr => ((List.pairwise_cons.mp hdist).1 r hr).symm)]
        exact headersSet_get_self sess k v
      · exact ih (headersSet sess k v)
          (fun r hr => hflag r (List.mem_cons_of_mem _ hr))
          (List.pairwise_cons.mp hdist).2 p hp'

/-- C10 (witness): with no omit flag among the pairs, a supplied header
is found in the Session's default headers afterwards. -/
theorem headers_written_when_no_omit_flag_witness :
    (is_omit_header_next_link [("Accept", "text/csv"), ("X-Custom", "1")]
        noHeaders).2 "Accept"
      = some "text/csv" :=
  headers_written_when_no_omit_flag [("Accept", "text/csv"), ("X-Custom", "1")]
    noHeaders (by decide) (by decide) ("Accept", "text/csv") (by decide)

end Enverus
